import Mathlib

/-!
Shallow embedding of `custom_components/actualbudget/actualbudget.py`
(the `ActualBudget` client wrapper of the ha-actualbudget integration)
together with theorems settling the specification claims about it.

Conventions of the embedding:
* machine time is an `Int` number of seconds;
* Python `None` becomes `Option.none`; Python string truthiness is
  modelled explicitly (`none` and the empty string are falsy);
* exceptions become `Except` results or explicit outcome data;
* Python `float` amounts are represented exactly by `ℚ` (the claims in
  scope concern branching on the amount, not rounding).
-/

/-! ### String helpers shared by the embedding -/

/-- ASCII lowercasing of one character, as Python `str.lower()` acts on
the ASCII range (the strings compared in the source are ASCII literals). -/
def lower_char (c : Char) : Char :=
  if 'A' ≤ c && c ≤ 'Z' then Char.ofNat (c.toNat + 32) else c

/-- Python `s.lower()`. -/
def str_lower (s : String) : String := ⟨s.data.map lower_char⟩

/-- Lexicographic code-point order on character lists, the order Python
uses to compare strings (and the order underlying `String` instances). -/
def chars_le : List Char → List Char → Bool
  | [], _ => true
  | _ :: _, [] => false
  | a :: as1, b :: bs => a < b || (a = b && chars_le as1 bs)

/-- Parse a run of decimal digits; `none` when empty or non-digit. -/
def digits_toNat? (l : List Char) : Option Nat :=
  match l with
  | [] => none
  | _ :: _ =>
    l.foldl
      (fun acc c =>
        match acc with
        | none => none
        | some n => if c.isDigit then some (n * 10 + (c.toNat - 48)) else none)
      (some 0)

/-- Python `int(s)` on an optionally signed digit string; `none` models
the `ValueError` branch.  (Surrounding whitespace and underscore
separators, which Python would also accept, are not modelled.) -/
def py_int? (s : String) : Option Int :=
  match s.data with
  | '-' :: rest => (digits_toNat? rest).map (fun n => -(n : Int))
  | '+' :: rest => (digits_toNat? rest).map (fun n => (n : Int))
  | l => (digits_toNat? l).map (fun n => (n : Int))

deriving instance DecidableEq for Except

/-! ### Session manager (`get_session`, lines 74-105) -/

/-- `SESSION_TIMEOUT = datetime.timedelta(minutes=30)`, in seconds. -/
def SESSION_TIMEOUT : Int := 30 * 60

/-- A remote Actual session object; `id` stands for Python object identity. -/
structure Session where
  id : Nat
deriving DecidableEq, Repr

/-- Outcome of the `self.actual.validate()` / `self.actual.sync()` round trip:
it validated, it reported `validated = False` (the code then raises), or the
round trip raised an exception. -/
inductive ValidateOutcome
  | validated
  | notValidated
  | exn
deriving DecidableEq, Repr

/-- The mutable fields of the `ActualBudget` object that `get_session` uses:
`self.actual` and `self.sessionStartedAt`. -/
structure ClientState where
  actual : Option Session
  sessionStartedAt : Int
deriving DecidableEq, Repr

/-- The environment of one `get_session` call: the current wall clock,
the behaviour of the validation round trip on each session, and the
outcome of `create_session` (which may raise, modelled as `Except.error`). -/
structure Env where
  now : Int
  validate : Session → ValidateOutcome
  create : Except Unit Session

/-- Result of a successful `get_session` call: the handle returned, the
state left behind, and the sessions disposed via `__exit__`. -/
structure GetSessionResult where
  returned : Session
  state : ClientState
  disposed : List Session
deriving DecidableEq, Repr

/-- Lines 76-85: invalidate the session if it is too old.  The `__exit__`
call is recorded in the disposed list (errors from it are swallowed). -/
def expire_old (env : Env) (st : ClientState) : ClientState × List Session :=
  match st.actual with
  | some s =>
    if st.sessionStartedAt + SESSION_TIMEOUT < env.now then
      ({ st with actual := none }, [s])
    else (st, [])
  | none => (st, [])

/-- Lines 87-97: validate an existing session; on a negative validation
result or any exception the session is dropped (`self.actual = None`). -/
def validate_existing (env : Env) (st : ClientState) : ClientState :=
  match st.actual with
  | some s =>
    match env.validate s with
    | .validated => st
    | .notValidated => { st with actual := none }
    | .exn => { st with actual := none }
  | none => st

/-- Lines 99-105: create a new session if needed (updating the timestamp
only on creation) and return the session handle. -/
def create_if_needed (env : Env) (st : ClientState) :
    Except Unit (Session × ClientState) :=
  match st.actual with
  | some s => .ok (s, st)
  | none =>
    match env.create with
    | .ok s => .ok (s, { actual := some s, sessionStartedAt := env.now })
    | .error e => .error e

/-- `get_session` (lines 74-105): expire by age, then revalidate, then
create if needed; returns the session handle or propagates the
`create_session` failure. -/
def get_session (env : Env) (st : ClientState) : Except Unit GetSessionResult :=
  match expire_old env st with
  | (st1, disposed) =>
    match create_if_needed env (validate_existing env st1) with
    | .ok (s, st3) => .ok ⟨s, st3, disposed⟩
    | .error e => .error e

/-! ### `test_connection_sync` (lines 412-431) -/

/-- The exception kinds named by the (commented-out) handlers of
`test_connection_sync`, plus a catch-all for any other exception. -/
inductive ExcKind
  | sslError
  | connectionError
  | authorizationError
  | unknownFileId
  | invalidFile
  | invalidZipFile
  | otherExc
deriving DecidableEq, Repr

/-- `test_connection_sync` (lines 412-431), over the outcome of its
`get_session()` call.  In the source every specific `except` clause is
commented out; the live code is `try: ... if not actualSession: return
"failed_file" except Exception as e: log` followed by `return None`, so
every exception is logged and swallowed. -/
def test_connection_sync (r : Except ExcKind (Option Session)) : Option String :=
  match r with
  | .ok none => some "failed_file"
  | .ok (some _) => none
  | .error _ => none

/-! Fixtures used by witnesses of the session-manager theorems. -/

/-- A stale client state: session `⟨0⟩` started at time 0. -/
def demo_state : ClientState := { actual := some ⟨0⟩, sessionStartedAt := 0 }

/-- Environment at time 10000 s (past the 1800 s TTL) that validates
everything and creates session `⟨1⟩`. -/
def demo_env : Env :=
  { now := 10000, validate := fun _ => .validated, create := .ok ⟨1⟩ }

/-- Environment at time 60 s (within the TTL) whose validation round trip
raises, creating session `⟨1⟩`. -/
def demo_env_invalid : Env :=
  { now := 60, validate := fun _ => .exn, create := .ok ⟨1⟩ }

/-! ### Bank-feed importer: start date (`run_akahu_bank_sync_sync`, lines 275-296) -/

/-- One day of `datetime.timedelta(days=1)`, in seconds. -/
def secondsPerDay : Int := 86400

/-- Lines 275-285: the start-date cutoff computed from `sync_days`.
`none` stands for the empty-string `startdate` ("all" branch); `some t`
for the isoformat timestamp `t`.  Python string truthiness makes the
`if(sync_days)` guard skip the whole block for the empty string, and
`int(sync_days)` is modelled by `py_int?` (a `ValueError` keeps the
20-day default with a warning). -/
def compute_startdate (sync_days : String) (now : Int) : Option Int :=
  let dflt := some (now - 20 * secondsPerDay)
  if sync_days ≠ "" then
    if str_lower sync_days = "all" then none
    else
      match py_int? sync_days with
      | some n => some (now - n * secondsPerDay)
      | none => dflt
  else dflt

/-! ### Bank-feed importer: pagination (lines 287-302 and 391-395) -/

/-- Line 393: `if not trans_cursor or trans_cursor.lower() == "none": break`.
The cursor is falsy when it is JSON `null` or the empty string. -/
def cursor_done (c : Option String) : Bool :=
  match c with
  | none => true
  | some s => s = "" || str_lower s = "none"

/-- Line 298: `if (trans_cursor): queryParams["cursor"] = trans_cursor` —
the cursor is attached to the request only when truthy. -/
def cursor_param (c : Option String) : Option String :=
  match c with
  | none => none
  | some s => if s = "" then none else some s

/-- The `while True` pagination loop of lines 293-395, restricted to its
cursor flow.  `next_of` maps the cursor parameter of a request to the
`cursor.next` field of its response; the loop starts with no cursor and
runs until the break condition fires.  The result is the trace of cursor
parameters sent, paired with `true` when the loop exited through the
break (`false` only when the fuel ran out first, the loop itself being
unbounded). -/
def page_requests (next_of : Option String → Option String) :
    Nat → Option String → List (Option String) × Bool
  | 0, _ => ([], false)
  | fuel + 1, cur =>
    let req := cursor_param cur
    let nxt := next_of req
    if cursor_done nxt then ([req], true)
    else
      (req :: (page_requests next_of fuel nxt).1,
        (page_requests next_of fuel nxt).2)

/-- The cursor value held in `trans_cursor` after `n` responses, starting
from the cursor `cur` (the loop itself starts from `none`, line 288). -/
def cursor_chain (next_of : Option String → Option String)
    (cur : Option String) : Nat → Option String
  | 0 => cur
  | n + 1 => next_of (cursor_param (cursor_chain next_of cur n))

/-- Feed used by the pagination witness: the first request (no cursor)
returns next-cursor "abc"; every later request returns "None", which must
stop the loop case-insensitively. -/
def demo_next (c : Option String) : Option String :=
  match c with
  | none => some "abc"
  | some _ => some "None"

/-! ### Bank-feed importer: per-transaction fields (lines 234-241, 305-358) -/

/-- `b` is a contiguous substring of `a`, as Python's `in` operator on
strings.  `chars_lead b a` checks that `b` starts `a`. -/
def chars_lead : List Char → List Char → Bool
  | [], _ => true
  | _ :: _, [] => false
  | n :: ns, h :: hs => n = h && chars_lead ns hs

/-- Substring occurrence anywhere in `hay`. -/
def chars_sub (needle : List Char) : List Char → Bool
  | [] => chars_lead needle []
  | c :: t => chars_lead needle (c :: t) || chars_sub needle t

/-- Python `needle in hay` on strings. -/
def py_in (needle hay : String) : Bool := chars_sub needle.data hay.data

/-- `cleanup_meta` (lines 234-241): blank any value containing "cdn." or
"akahu" in its lowercase form. -/
def cleanup_meta (checkstring : String) : String :=
  if py_in "cdn." (str_lower checkstring) then ""
  else if py_in "akahu" (str_lower checkstring) then ""
  else checkstring

/-- The merchant/meta summary loops (lines 317-325 and 335-343): iterate
the dict items in order, skip the `_id` key, pass each value through
`cleanup_meta`, and join with two spaces; `none` when no non-id item was
seen. -/
def dict_summary_fold (kvs : List (String × String)) : Option String :=
  kvs.foldl
    (fun acc kv =>
      if kv.fst = "_id" then acc
      else
        match acc with
        | none => some (cleanup_meta kv.snd)
        | some s => some (s ++ "  " ++ cleanup_meta kv.snd))
    none

/-- The guarded summary: `transaction.get("merchant")` / `.get("meta")` is
falsy when the key is absent or the dict is empty, in which case the loop
body never runs and the summary stays `None`. -/
def dict_summary (d : Option (List (String × String))) : Option String :=
  match d with
  | none => none
  | some [] => none
  | some (kv :: kvs) => dict_summary_fold (kv :: kvs)

/-- Python truthiness of an optional string: `None` and `""` are falsy. -/
def opt_truthy (o : Option String) : Bool :=
  match o with
  | none => false
  | some s => s ≠ ""

/-- Lines 345-353: build `trans_notes` starting from `""`, appending the
meta summary, the merchant summary and the specific category name (each
followed by a space, each only when truthy), then the original
description. -/
def build_notes (meta_summary merchant_summary category_name : Option String)
    (desc : String) : String :=
  let n0 := ""
  let n1 := if opt_truthy meta_summary then n0 ++ (meta_summary.getD "" ++ " ") else n0
  let n2 := if opt_truthy merchant_summary then n1 ++ (merchant_summary.getD "" ++ " ") else n1
  let n3 := if opt_truthy category_name then n2 ++ (category_name.getD "" ++ " ") else n2
  n3 ++ desc

/-- Length of the run of decimal digits at the end of `l`. -/
def digit_run_len (l : List Char) : Nat :=
  (l.reverse.takeWhile (fun c => c.isDigit)).length

/-- `re.sub(r'\d{3,}$', '', s)` from line 358: remove the maximal trailing
run of digits when it has length at least 3.  Python's `$` also matches
just before a lone final newline, so a qualifying run immediately before
a final `'\n'` is removed as well. -/
def strip_trailing_digits (s : String) : String :=
  let l := s.data
  let k := digit_run_len l
  if 3 ≤ k then ⟨l.take (l.length - k)⟩
  else
    match l.getLast? with
    | some c =>
      if c = '\n' then
        let body := l.dropLast
        let kb := digit_run_len body
        if 3 ≤ kb then ⟨body.take (body.length - kb) ++ ['\n']⟩ else s
      else s
    | none => s

/-- Whitespace characters removed by Python's `str.strip()` (ASCII part). -/
def py_space (c : Char) : Bool :=
  c = ' ' || c = '\t' || c = '\n' || c = '\r' || c = '\x0b' || c = '\x0c'

/-- Python `s.strip()`: drop leading and trailing whitespace. -/
def py_strip (s : String) : String :=
  ⟨((s.data.dropWhile py_space).reverse.dropWhile py_space).reverse⟩

/-- Line 358 in full: `trans_desc = (re.sub(r'\d{3,}$', '', trans_desc)).strip()`,
the payee of the imported transaction. -/
def strip_desc (desc : String) : String :=
  py_strip (strip_trailing_digits desc)

/-- The payee as claim C9 words it: the description with any trailing run
of 3 or more digits removed, everything else untouched.  (Stated from the
claim, for comparison with `strip_desc`, which is stated from the code.) -/
def payee_per_claim (desc : String) : String :=
  let l := desc.data
  let k := digit_run_len l
  if 3 ≤ k then ⟨l.take (l.length - k)⟩ else desc

/-! ### Bank-feed importer: deduplication (lines 376-382) -/

/-- The key `match_transaction` is called with on line 377. -/
structure TxnKey where
  date : Int
  account : String
  imported_id : String
deriving DecidableEq, Repr

/-- `match_transaction(s=session, date=..., account=..., imported_id=...)`:
look up an existing transaction with this exact key in the store. -/
def match_transaction (store : List TxnKey) (k : TxnKey) : Option TxnKey :=
  store.find? (fun t => t = k)

/-- Lines 376-382: create the transaction only when the lookup found no
match; `create_transaction` makes it visible to later lookups.  Returns
the updated store and whether a creation happened. -/
def process_transaction (store : List TxnKey) (k : TxnKey) :
    List TxnKey × Bool :=
  match match_transaction store k with
  | some _ => (store, false)
  | none => (store ++ [k], true)

/-! ### Budget readers (`get_budgets_sync` lines 159-187, `get_budget_sync`
lines 195-216) -/

/-- A raw budget-month row as returned by the remote `get_budgets` query:
an optional category (the row is skipped when falsy), an optional integer
minor-unit amount, and the month rendered through `str(...)`. -/
structure RawBudget where
  category : Option String
  amount : Option Int
  month : String
deriving DecidableEq, Repr

/-- The dataclass `BudgetAmount` (lines 30-33), with the float amount
represented exactly as a rational. -/
structure BudgetAmount where
  month : String
  amount : Option ℚ
deriving DecidableEq, Repr

/-- The dataclass `Budget` (lines 36-40). -/
structure Budget where
  name : String
  amounts : List BudgetAmount
  balance : ℚ
deriving DecidableEq, Repr

/-- Lines 168-170 and 207-209:
`amount = None if not budget_raw.amount else (float(budget_raw.amount) / 100)`.
Python falsiness makes both `None` and `0` take the `None` branch. -/
def map_amount (a : Option Int) : Option ℚ :=
  match a with
  | none => none
  | some v => if v = 0 then none else some ((v : ℚ) / 100)

/-- `sorted(amounts, key=lambda x: x.month)` (lines 180-182 and 212):
Python's stable ascending sort by the month string, modelled by stable
insertion sort over the code-point order `chars_le`. -/
def sort_by_month (l : List BudgetAmount) : List BudgetAmount :=
  List.insertionSort (fun x y => chars_le x.month.data y.month.data = true) l

/-- Append a `BudgetAmount` to its category's bucket in an insertion-order
association list, creating the bucket on first sight — the behaviour of
the `budgets` dict of lines 163-178. -/
def add_row (cat : String) (ba : BudgetAmount) :
    List (String × List BudgetAmount) → List (String × List BudgetAmount)
  | [] => [(cat, [ba])]
  | (c, l) :: rest =>
    if c = cat then (c, l ++ [ba]) :: rest
    else (c, l) :: add_row cat ba rest

/-- The grouping loop of lines 164-178, carried state first: rows without
a category are skipped, the rest are bucketed by category name. -/
def group_rows_from (acc : List (String × List BudgetAmount)) :
    List RawBudget → List (String × List BudgetAmount)
  | [] => acc
  | r :: rest =>
    match r.category with
    | none => group_rows_from acc rest
    | some cat => group_rows_from (add_row cat ⟨r.month, map_amount r.amount⟩ acc) rest

/-- The grouping loop of lines 164-178: rows without a category are
skipped, the rest are bucketed by category name in insertion order
(Python dicts preserve insertion order). -/
def group_rows (rows : List RawBudget) : List (String × List BudgetAmount) :=
  group_rows_from [] rows

/-- `get_budgets_sync` (lines 159-187) after the remote fetch: group the
rows, sort each category's amounts by month, and attach the category
balance (`0` when the category lookup returns nothing).  `cat_balance`
stands for `get_category`. -/
def get_budgets_sync (cat_balance : String → Option ℚ)
    (rows : List RawBudget) : List Budget :=
  (group_rows rows).map
    (fun p => ⟨p.fst, sort_by_month p.snd, (cat_balance p.fst).getD 0⟩)

/-- `get_budget_sync` (lines 195-216) after the remote fetch: raise when
no row came back, otherwise map every row (no category filter here),
sort by month, and attach the balance. -/
def get_budget_sync (cat_balance : String → Option ℚ) (budget_name : String)
    (rows : List RawBudget) : Except String Budget :=
  match rows with
  | [] => .error ("budget " ++ budget_name ++ " not found")
  | _ :: _ =>
    .ok
      { name := budget_name
        amounts :=
          sort_by_month (rows.map (fun r => ⟨r.month, map_amount r.amount⟩))
        balance := (cat_balance budget_name).getD 0 }

/-- Balance oracle used by budget witnesses: every category is unknown. -/
def demo_balance (_ : String) : Option ℚ := none

/-- Rows used by the budget witnesses: one category with months out of
order, one zero amount and two null amounts. -/
def demo_rows : List RawBudget :=
  [⟨some "food", some 0, "2024-02"⟩,
   ⟨some "food", none, "2024-01"⟩,
   ⟨some "food", none, "2024-03"⟩]

/-- The `get_session` outcome on `demo_env` and `demo_state`. -/
def demo_result : GetSessionResult := ⟨⟨1⟩, ⟨some ⟨1⟩, 10000⟩, [⟨0⟩]⟩

/-- The `get_session` outcome on `demo_env_invalid` and `demo_state`. -/
def demo_result_invalid : GetSessionResult := ⟨⟨1⟩, ⟨some ⟨1⟩, 60⟩, []⟩

/-! ## Theorems -/

/-! ### Order facts about `chars_le` -/

theorem chars_le_iff_not_lex :
    ∀ l1 l2 : List Char, chars_le l1 l2 = true ↔ ¬ List.Lex (· < ·) l2 l1 := by
  intro l1
  induction l1 with
  | nil =>
    intro l2
    exact iff_of_true rfl (List.Lex.not_nil_right _ _)
  | cons a as1 ih =>
    intro l2
    cases l2 with
    | nil =>
      simp only [chars_le]
      exact iff_of_false (by simp) (fun h => h List.Lex.nil)
    | cons b bs =>
      simp only [chars_le, Bool.or_eq_true, Bool.and_eq_true, decide_eq_true_eq]
      constructor
      · rintro (hab | ⟨rfl, h⟩) hlex
        · cases hlex with
          | rel h2 => exact absurd hab (lt_asymm h2)
          | cons h2 => exact absurd hab (lt_irrefl _)
        · cases hlex with
          | rel h2 => exact absurd h2 (lt_irrefl _)
          | cons h2 => exact absurd h2 ((ih bs).mp h)
      · intro hn
        rcases lt_trichotomy a b with h | h | h
        · exact Or.inl h
        · refine Or.inr ⟨h, (ih bs).mpr ?_⟩
          intro hlex
          exact hn (h ▸ List.Lex.cons hlex)
        · exact absurd (List.Lex.rel h) hn

theorem chars_le_iff_le (s1 s2 : String) :
    chars_le s1.data s2.data = true ↔ s1 ≤ s2 := by
  rw [chars_le_iff_not_lex]
  constructor
  · intro h hlt
    exact h (String.lt_iff_toList_lt.mp hlt)
  · intro hle hlex
    exact hle (String.lt_iff_toList_lt.mpr hlex)

/-! ### Claim C1 -/

/-- Claim C1 counterexample: an SSL failure raised inside `get_session`
does not make `test_connection` return "failed_ssl" — the exception is
swallowed and `test_connection` returns no error. -/
theorem test_connection_ssl_swallowed :
    test_connection_sync (Except.error ExcKind.sslError) = none ∧
      test_connection_sync (Except.error ExcKind.sslError) ≠ some "failed_ssl" := by
  decide

/-- Claim C1 (amended): every exception raised by `get_session` during
`test_connection` — SSL, connection, authorization, unknown/invalid-file
or any other kind — is logged and swallowed, and `test_connection`
returns no error; the only error code it can return is "failed_file",
produced when `get_session` returns a falsy session handle. -/
theorem test_connection_swallows_all :
    (∀ e : ExcKind, test_connection_sync (Except.error e) = none) ∧
      test_connection_sync (Except.ok none) = some "failed_file" ∧
      (∀ s : Session, test_connection_sync (Except.ok (some s)) = none) :=
  ⟨fun _ => rfl, rfl, fun _ => rfl⟩

/-! ### Claim C2 -/

/-- Claim C2 counterexample: with `sync_days = ""` the computed start date
is not unbounded — it is the default cutoff of 20 days before now, and the
request does carry that lower bound. -/
theorem startdate_empty_not_unbounded :
    compute_startdate "" 0 ≠ none ∧
      compute_startdate "" 0 = some (0 - 20 * secondsPerDay) := by
  decide

/-- Claim C2 (amended): when `sync_days` is the empty string the start
date falls back to the default cutoff of 20 days before now (so the
listing request carries that lower bound); the cutoff is unbounded
exactly when `sync_days` is nonempty and equals "all" case-insensitively. -/
theorem startdate_empty_defaults :
    ∀ (s : String) (now : Int),
      compute_startdate "" now = some (now - 20 * secondsPerDay) ∧
        (compute_startdate s now = none ↔ s ≠ "" ∧ str_lower s = "all") := by
  intro s now
  refine ⟨rfl, ?_⟩
  by_cases hs : s = ""
  · subst hs
    simp [compute_startdate]
  · by_cases hl : str_lower s = "all"
    · simp [compute_startdate, hs, hl]
    · simp only [compute_startdate, if_pos hs, if_neg hl]
      cases py_int? s <;> simp [hs, hl]

/-- Witness for the amended C2 at the concrete inputs "" and "ALL". -/
theorem startdate_empty_defaults_witness :
    compute_startdate "" 0 = some (0 - 20 * secondsPerDay) ∧
      (compute_startdate "ALL" 0 = none ↔
        "ALL" ≠ "" ∧ str_lower "ALL" = "all") :=
  startdate_empty_defaults "ALL" 0

/-! ### Claim C3 -/

/-- Claim C3: when the cached session is more than 30 minutes old,
`get_session` disposes it and the handle returned belongs to the newly
created session, never the stale one; the timestamp is reset to now.
(`hfresh` states that `create_session` returns a fresh object, which in
Python is distinct from the old one.) -/
theorem get_session_stale_discarded
    (env : Env) (st : ClientState) (s : Session) (r : GetSessionResult)
    (hs : st.actual = some s)
    (hstale : st.sessionStartedAt + SESSION_TIMEOUT < env.now)
    (hfresh : ∀ s2, env.create = Except.ok s2 → s2 ≠ s)
    (hok : get_session env st = Except.ok r) :
    s ∈ r.disposed ∧ env.create = Except.ok r.returned ∧ r.returned ≠ s ∧
      r.state.actual = some r.returned ∧ r.state.sessionStartedAt = env.now := by
  simp only [get_session, expire_old, validate_existing, create_if_needed, hs,
    if_pos hstale] at hok
  cases hcreate : env.create with
  | ok s2 =>
    rw [hcreate] at hok
    simp only [Except.ok.injEq] at hok
    subst hok
    exact ⟨List.mem_singleton.mpr rfl, rfl, hfresh s2 hcreate, rfl, rfl⟩
  | error e =>
    rw [hcreate] at hok
    simp at hok

/-- Witness for C3 at a concrete stale state and environment. -/
theorem get_session_stale_discarded_witness :
    (⟨0⟩ : Session) ∈ demo_result.disposed ∧
      demo_env.create = Except.ok demo_result.returned ∧
      demo_result.returned ≠ ⟨0⟩ ∧
      demo_result.state.actual = some demo_result.returned ∧
      demo_result.state.sessionStartedAt = demo_env.now :=
  get_session_stale_discarded demo_env demo_state ⟨0⟩ demo_result rfl
    (by decide)
    (fun s2 h => by
      have h2 : (⟨1⟩ : Session) = s2 := by
        simpa [demo_env] using h
      subst h2
      decide)
    (by decide)

/-! ### Claim C4 -/

/-- Claim C4: when the cached session survives the age check but its
validation round trip raises or reports a negative result, the session is
discarded and a new one is created; the handle returned never belongs to
the session that failed validation. -/
theorem get_session_invalid_discarded
    (env : Env) (st : ClientState) (s : Session) (r : GetSessionResult)
    (hs : st.actual = some s)
    (hnotstale : ¬ st.sessionStartedAt + SESSION_TIMEOUT < env.now)
    (hval : env.validate s ≠ ValidateOutcome.validated)
    (hfresh : ∀ s2, env.create = Except.ok s2 → s2 ≠ s)
    (hok : get_session env st = Except.ok r) :
    env.create = Except.ok r.returned ∧ r.returned ≠ s ∧
      r.state.actual = some r.returned ∧ r.state.sessionStartedAt = env.now := by
  simp only [get_session, expire_old, validate_existing, create_if_needed, hs,
    if_neg hnotstale] at hok
  cases hv : env.validate s with
  | validated => exact absurd hv hval
  | notValidated =>
    rw [hv] at hok
    cases hcreate : env.create with
    | ok s2 =>
      rw [hcreate] at hok
      simp only [Except.ok.injEq] at hok
      subst hok
      exact ⟨rfl, hfresh s2 hcreate, rfl, rfl⟩
    | error e =>
      rw [hcreate] at hok
      simp at hok
  | exn =>
    rw [hv] at hok
    cases hcreate : env.create with
    | ok s2 =>
      rw [hcreate] at hok
      simp only [Except.ok.injEq] at hok
      subst hok
      exact ⟨rfl, hfresh s2 hcreate, rfl, rfl⟩
    | error e =>
      rw [hcreate] at hok
      simp at hok

/-- Witness for C4 at a concrete fresh-but-invalid state and environment. -/
theorem get_session_invalid_discarded_witness :
    demo_env_invalid.create = Except.ok demo_result_invalid.returned ∧
      demo_result_invalid.returned ≠ ⟨0⟩ ∧
      demo_result_invalid.state.actual = some demo_result_invalid.returned ∧
      demo_result_invalid.state.sessionStartedAt = demo_env_invalid.now :=
  get_session_invalid_discarded demo_env_invalid demo_state ⟨0⟩
    demo_result_invalid rfl (by decide) (by decide)
    (fun s2 h => by
      have h2 : (⟨1⟩ : Session) = s2 := by
        simpa [demo_env_invalid] using h
      subst h2
      decide)
    (by decide)

/-! ### Claim C5 -/

/-- Claim C5: a transaction whose (date, account, imported-id) key already
matches an existing transaction is never created again; `create_transaction`
runs exactly when the `match_transaction` lookup returns no result, and a
second processing of the same key never creates a duplicate. -/
theorem dedup_no_duplicate_create :
    ∀ (store : List TxnKey) (k : TxnKey),
      ((process_transaction store k).snd = true ↔
        match_transaction store k = none) ∧
      (process_transaction (process_transaction store k).fst k).snd = false := by
  intro store k
  constructor
  · cases h : match_transaction store k <;> simp [process_transaction, h]
  · cases h : match_transaction store k with
    | some t => simp [process_transaction, h]
    | none =>
      have h2 : (match_transaction (store ++ [k]) k).isSome := by
        unfold match_transaction
        rw [List.find?_isSome]
        exact ⟨k, by simp, by simp⟩
      simp only [process_transaction, h]
      cases h3 : match_transaction (store ++ [k]) k with
      | none => rw [h3] at h2; simp at h2
      | some t => simp

/-- Witness for C5 at a concrete key processed twice from an empty store. -/
theorem dedup_no_duplicate_create_witness :
    ((process_transaction [] ⟨1, "acc", "t1"⟩).snd = true ↔
      match_transaction [] ⟨1, "acc", "t1"⟩ = none) ∧
      (process_transaction
        (process_transaction [] ⟨1, "acc", "t1"⟩).fst ⟨1, "acc", "t1"⟩).snd
        = false :=
  dedup_no_duplicate_create [] ⟨1, "acc", "t1"⟩

/-! ### Claim C9 -/

/-- Claim C9 counterexample: for the description "COFFEE SHOP 1234" the
payee computed by the code is "COFFEE SHOP" (the trailing space left by
the digit removal is stripped), not the "COFFEE SHOP " that removing only
the digit run would give. -/
theorem strip_desc_counterexample :
    strip_desc "COFFEE SHOP 1234" = "COFFEE SHOP" ∧
      payee_per_claim "COFFEE SHOP 1234" = "COFFEE SHOP " ∧
      strip_desc "COFFEE SHOP 1234" ≠ payee_per_claim "COFFEE SHOP 1234" := by
  decide

/-- Claim C9 (amended): the payee is the remote description with any
trailing run of 3 or more digits removed and the result trimmed of
leading and trailing whitespace (a trailing run of fewer than 3 digits is
kept, only whitespace-trimmed); stated here for descriptions not ending
in a newline, where the regex end anchor has its plain meaning.  The
notes string always ends with the original unstripped description. -/
theorem strip_desc_amended :
    ∀ (meta_summary merchant_summary category_name : Option String)
      (desc : String),
      (desc.data.getLast? ≠ some '\n' →
        strip_desc desc = py_strip (payee_per_claim desc)) ∧
      ∃ p, build_notes meta_summary merchant_summary category_name desc =
        p ++ desc := by
  intro meta_summary merchant_summary category_name desc
  constructor
  · intro hnl
    unfold strip_desc strip_trailing_digits payee_per_claim
    by_cases h3 : 3 ≤ digit_run_len desc.data
    · simp [h3]
    · simp only [if_neg h3]
      cases hl : desc.data.getLast? with
      | none => rfl
      | some c =>
        by_cases hc : c = '\n'
        · exact absurd (by rw [hl, hc]) hnl
        · simp [hc]
  · exact ⟨_, rfl⟩

/-- Witness for the amended C9 at a concrete description with a short
digit run. -/
theorem strip_desc_amended_witness :
    (strip_desc "COFFEE SHOP 12" = py_strip (payee_per_claim "COFFEE SHOP 12")) ∧
      ∃ p, build_notes (some "m") none (some "Groceries") "COFFEE SHOP 12" =
        p ++ "COFFEE SHOP 12" :=
  ⟨(strip_desc_amended none none none "COFFEE SHOP 12").1 (by decide),
   (strip_desc_amended (some "m") none (some "Groceries") "COFFEE SHOP 12").2⟩

/-! ### Claim C6 -/

theorem cursor_chain_succ (next_of : Option String → Option String)
    (cur : Option String) :
    ∀ n, cursor_chain next_of cur (n + 1) =
      cursor_chain next_of (next_of (cursor_param cur)) n := by
  intro n
  induction n with
  | zero => rfl
  | succ n ih =>
    show next_of (cursor_param (cursor_chain next_of cur (n + 1))) = _
    rw [ih]
    rfl

theorem page_requests_trace (next_of : Option String → Option String) :
    ∀ (n : Nat) (cur : Option String) (fuel : Nat),
      n < fuel →
      (∀ m, m < n → cursor_done (cursor_chain next_of cur (m + 1)) = false) →
      cursor_done (cursor_chain next_of cur (n + 1)) = true →
      page_requests next_of fuel cur =
        ((List.range (n + 1)).map
          (fun i => cursor_param (cursor_chain next_of cur i)), true) := by
  intro n
  induction n with
  | zero =>
    intro cur fuel hfuel _ hdone
    cases fuel with
    | zero => omega
    | succ f =>
      have hd : cursor_done (next_of (cursor_param cur)) = true := hdone
      simp only [page_requests, hd, if_true]
      rfl
  | succ n ih =>
    intro cur fuel hfuel hbefore hdone
    cases fuel with
    | zero => omega
    | succ f =>
      have h0 : cursor_done (next_of (cursor_param cur)) = false :=
        hbefore 0 (Nat.succ_pos n)
      have hrec := ih (next_of (cursor_param cur)) f (by omega)
        (fun m hm => by
          rw [← cursor_chain_succ]
          exact hbefore (m + 1) (by omega))
        (by rw [← cursor_chain_succ]; exact hdone)
      have hstep : page_requests next_of (f + 1) cur =
          (cursor_param cur ::
            (page_requests next_of f (next_of (cursor_param cur))).1,
            (page_requests next_of f (next_of (cursor_param cur))).2) := by
        simp only [page_requests, h0, Bool.false_eq_true, if_false]
      rw [hstep, hrec]
      show (cursor_param cur :: (List.range (n + 1)).map
            (fun i => cursor_param
              (cursor_chain next_of (next_of (cursor_param cur)) i)),
          true) =
        ((List.range (n + 1 + 1)).map
          (fun i => cursor_param (cursor_chain next_of cur i)), true)
      refine (Prod.mk.injEq _ _ _ _).mpr ⟨?_, rfl⟩
      conv_rhs => rw [List.range_succ_eq_map, List.map_cons, List.map_map]
      rw [List.cons.injEq]
      refine ⟨rfl, ?_⟩
      apply List.map_congr_left
      intro i _
      show cursor_param (cursor_chain next_of (next_of (cursor_param cur)) i) =
        cursor_param (cursor_chain next_of cur (i + 1))
      rw [cursor_chain_succ]

/-- Claim C6: starting from no cursor, the pagination loop stops exactly
at the first response whose next-cursor is empty/absent or equals "none"
case-insensitively (after `n + 1` requests when response `n + 1` is the
first terminal one), and until then each response's cursor is passed as
the next request's cursor parameter: request `i` carries
`cursor_param (cursor_chain next_of none i)`. -/
theorem pagination_terminates
    (next_of : Option String → Option String) (n fuel : Nat)
    (hfuel : n < fuel)
    (hbefore : ∀ m, m < n → cursor_done (cursor_chain next_of none (m + 1)) = false)
    (hdone : cursor_done (cursor_chain next_of none (n + 1)) = true) :
    page_requests next_of fuel none =
      ((List.range (n + 1)).map
        (fun i => cursor_param (cursor_chain next_of none i)), true) :=
  page_requests_trace next_of n none fuel hfuel hbefore hdone

/-- Witness for C6 on the concrete feed `demo_next`: the second response
answers "None", so the loop makes exactly two requests and stops. -/
theorem pagination_terminates_witness :
    page_requests demo_next 5 none =
      ((List.range 2).map
        (fun i => cursor_param (cursor_chain demo_next none i)), true) :=
  pagination_terminates demo_next 1 5 (by decide)
    (fun m hm => by
      have hm0 : m = 0 := by omega
      subst hm0
      decide)
    (by decide)

/-! ### Budget helper lemmas -/

theorem mem_sort_by_month {ba : BudgetAmount} {l : List BudgetAmount} :
    ba ∈ sort_by_month l ↔ ba ∈ l :=
  List.mem_insertionSort _

theorem sort_by_month_sorted (l : List BudgetAmount) :
    (sort_by_month l).Pairwise (fun x y => x.month ≤ y.month) := by
  have hs : (sort_by_month l).Pairwise
      (fun x y => chars_le x.month.data y.month.data = true) := by
    haveI ht : IsTotal BudgetAmount
        (fun x y => chars_le x.month.data y.month.data = true) :=
      ⟨fun a b => by
        rcases le_total a.month b.month with h | h
        · exact Or.inl ((chars_le_iff_le _ _).mpr h)
        · exact Or.inr ((chars_le_iff_le _ _).mpr h)⟩
    haveI htr : IsTrans BudgetAmount
        (fun x y => chars_le x.month.data y.month.data = true) :=
      ⟨fun a b c hab hbc =>
        (chars_le_iff_le _ _).mpr
          (le_trans ((chars_le_iff_le _ _).mp hab)
            ((chars_le_iff_le _ _).mp hbc))⟩
    exact List.sorted_insertionSort _ l
  exact hs.imp fun h => (chars_le_iff_le _ _).mp h

theorem add_row_mem_inv (Q : BudgetAmount → Prop) (cat : String)
    (ba : BudgetAmount) :
    ∀ acc : List (String × List BudgetAmount),
      (∀ p ∈ acc, ∀ x ∈ p.2, Q x) → Q ba →
      ∀ p ∈ add_row cat ba acc, ∀ x ∈ p.2, Q x := by
  intro acc
  induction acc with
  | nil =>
    intro _ hba p hp x hx
    simp only [add_row, List.mem_singleton] at hp
    subst hp
    simp only [List.mem_singleton] at hx
    subst hx
    exact hba
  | cons hd tl ih =>
    intro hacc hba p hp x hx
    obtain ⟨c, l⟩ := hd
    simp only [add_row] at hp
    by_cases hc : c = cat
    · rw [if_pos hc] at hp
      rcases List.mem_cons.mp hp with h | h
      · subst h
        rcases List.mem_append.mp hx with h2 | h2
        · exact hacc (c, l) (List.mem_cons_self _ _) x h2
        · have hxb : x = ba := by simpa using h2
          subst hxb
          exact hba
      · exact hacc p (List.mem_cons_of_mem _ h) x hx
    · rw [if_neg hc] at hp
      rcases List.mem_cons.mp hp with h | h
      · subst h
        exact hacc (c, l) (List.mem_cons_self _ _) x hx
      · exact ih (fun q hq => hacc q (List.mem_cons_of_mem _ hq)) hba p h x hx

theorem group_rows_from_inv (Q : BudgetAmount → Prop) :
    ∀ (rows : List RawBudget) (acc : List (String × List BudgetAmount)),
      (∀ p ∈ acc, ∀ x ∈ p.2, Q x) →
      (∀ r ∈ rows, Q ⟨r.month, map_amount r.amount⟩) →
      ∀ p ∈ group_rows_from acc rows, ∀ x ∈ p.2, Q x := by
  intro rows
  induction rows with
  | nil =>
    intro acc hacc _ p hp
    exact hacc p hp
  | cons r rest ih =>
    intro acc hacc hrows p hp
    cases hcat : r.category with
    | none =>
      have hg : group_rows_from acc (r :: rest) = group_rows_from acc rest := by
        simp [group_rows_from, hcat]
      rw [hg] at hp
      exact ih acc hacc (fun q hq => hrows q (List.mem_cons_of_mem _ hq)) p hp
    | some cat =>
      have hg : group_rows_from acc (r :: rest) =
          group_rows_from (add_row cat ⟨r.month, map_amount r.amount⟩ acc)
            rest := by
        simp [group_rows_from, hcat]
      rw [hg] at hp
      exact ih _
        (add_row_mem_inv Q cat _ acc hacc (hrows r (List.mem_cons_self _ _)))
        (fun q hq => hrows q (List.mem_cons_of_mem _ hq)) p hp

theorem mem_amounts_get_budgets
    (bal : String → Option ℚ) (rows : List RawBudget) (b : Budget)
    (ba : BudgetAmount) (hb : b ∈ get_budgets_sync bal rows)
    (hba : ba ∈ b.amounts) :
    ∃ r ∈ rows, ba.month = r.month ∧ ba.amount = map_amount r.amount := by
  obtain ⟨p, hp, rfl⟩ := List.mem_map.mp hb
  have hba2 : ba ∈ p.2 := mem_sort_by_month.mp hba
  exact group_rows_from_inv
    (fun x => ∃ r ∈ rows, x.month = r.month ∧ x.amount = map_amount r.amount)
    rows [] (by simp) (fun r hr => ⟨r, hr, rfl, rfl⟩) p hp ba hba2

theorem mem_amounts_get_budget
    (bal : String → Option ℚ) (nm : String) (rows : List RawBudget)
    (b : Budget) (ba : BudgetAmount)
    (hok : get_budget_sync bal nm rows = Except.ok b) (hba : ba ∈ b.amounts) :
    ∃ r ∈ rows, ba.month = r.month ∧ ba.amount = map_amount r.amount := by
  cases rows with
  | nil => simp [get_budget_sync] at hok
  | cons r0 rest =>
    simp only [get_budget_sync, Except.ok.injEq] at hok
    subst hok
    have hba2 := mem_sort_by_month.mp hba
    obtain ⟨r, hr, hmk⟩ := List.mem_map.mp hba2
    exact ⟨r, hr, by rw [← hmk], by rw [← hmk]⟩

/-! ### Claim C8 -/

/-- Claim C8: in every budget returned by `get_budgets` (and in the single
budget returned by `get_budget`) the list of (month, amount) pairs is
sorted ascending by the month string. -/
theorem budgets_sorted_by_month :
    (∀ (bal : String → Option ℚ) (rows : List RawBudget) (b : Budget),
        b ∈ get_budgets_sync bal rows →
        b.amounts.Pairwise (fun x y => x.month ≤ y.month)) ∧
      (∀ (bal : String → Option ℚ) (nm : String) (rows : List RawBudget)
          (b : Budget),
        get_budget_sync bal nm rows = Except.ok b →
        b.amounts.Pairwise (fun x y => x.month ≤ y.month)) := by
  constructor
  · intro bal rows b hb
    obtain ⟨p, hp, rfl⟩ := List.mem_map.mp hb
    exact sort_by_month_sorted p.2
  · intro bal nm rows b hok
    cases rows with
    | nil => simp [get_budget_sync] at hok
    | cons r0 rest =>
      simp only [get_budget_sync, Except.ok.injEq] at hok
      subst hok
      exact sort_by_month_sorted _

/-- Witness for C8 at concrete out-of-order rows. -/
theorem budgets_sorted_by_month_witness :
    (⟨"food", [⟨"2024-01", none⟩, ⟨"2024-02", none⟩, ⟨"2024-03", none⟩], 0⟩
        : Budget).amounts.Pairwise (fun x y => x.month ≤ y.month) :=
  budgets_sorted_by_month.1 demo_balance demo_rows
    ⟨"food", [⟨"2024-01", none⟩, ⟨"2024-02", none⟩, ⟨"2024-03", none⟩], 0⟩
    (by decide)

/-! ### Claim C7 -/

/-- Claim C7 counterexample: a present remote amount equal to `0` is
stored as an absent amount, not as the value `0 / 100` the claim
prescribes for every present amount. -/
theorem zero_amount_counterexample :
    get_budget_sync demo_balance "food" [⟨some "food", some 0, "2024-02"⟩] =
      Except.ok ⟨"food", [⟨"2024-02", none⟩], 0⟩ ∧
      (none : Option ℚ) ≠ some ((0 : ℚ) / 100) :=
  ⟨by decide, by simp⟩

/-- Claim C7 (amended): in `get_budgets` and `get_budget` a null remote
amount maps to an absent value, never zero; a present amount of exactly
`0` also maps to an absent value (Python falsiness); every present
nonzero amount is stored as the minor-unit value divided by 100; and
every stored amount is the `map_amount` image of some fetched row. -/
theorem amount_mapping :
    map_amount none = none ∧
      map_amount (some 0) = none ∧
      (∀ v : Int, v ≠ 0 → map_amount (some v) = some ((v : ℚ) / 100)) ∧
      (∀ (bal : String → Option ℚ) (rows : List RawBudget) (b : Budget)
          (ba : BudgetAmount),
        b ∈ get_budgets_sync bal rows → ba ∈ b.amounts →
        ∃ r ∈ rows, ba.month = r.month ∧ ba.amount = map_amount r.amount) ∧
      (∀ (bal : String → Option ℚ) (nm : String) (rows : List RawBudget)
          (b : Budget) (ba : BudgetAmount),
        get_budget_sync bal nm rows = Except.ok b → ba ∈ b.amounts →
        ∃ r ∈ rows, ba.month = r.month ∧ ba.amount = map_amount r.amount) :=
  ⟨rfl, rfl, fun v hv => by simp [map_amount, hv],
    mem_amounts_get_budgets, mem_amounts_get_budget⟩

/-- Witness for the amended C7 at a nonzero amount and a concrete row set. -/
theorem amount_mapping_witness :
    map_amount (some 250) = some ((250 : ℚ) / 100) ∧
      ∃ r ∈ demo_rows, ("2024-02" : String) = r.month ∧
        (none : Option ℚ) = map_amount r.amount :=
  ⟨amount_mapping.2.2.1 250 (by decide),
    amount_mapping.2.2.2.1 demo_balance demo_rows
      ⟨"food", [⟨"2024-01", none⟩, ⟨"2024-02", none⟩, ⟨"2024-03", none⟩], 0⟩
      ⟨"2024-02", none⟩ (by decide) (by decide)⟩

/-! ### Claim C10 -/

/-- Claim C10: in `get_budgets` and `get_budget` a budget-month row whose
remote amount is exactly `0` maps to an absent value, the same as a null
amount, and no stored amount is ever `0` — the falsiness check cannot
distinguish `0` from null. -/
theorem zero_amount_absent :
    map_amount (some 0) = none ∧
      map_amount none = none ∧
      (∀ a : Option Int, map_amount a ≠ some 0) ∧
      (∀ (bal : String → Option ℚ) (rows : List RawBudget) (b : Budget)
          (ba : BudgetAmount),
        b ∈ get_budgets_sync bal rows → ba ∈ b.amounts →
        ba.amount ≠ some 0) ∧
      (∀ (bal : String → Option ℚ) (nm : String) (rows : List RawBudget)
          (b : Budget) (ba : BudgetAmount),
        get_budget_sync bal nm rows = Except.ok b → ba ∈ b.amounts →
        ba.amount ≠ some 0) := by
  have hnz : ∀ a : Option Int, map_amount a ≠ some 0 := by
    intro a
    cases a with
    | none => simp [map_amount]
    | some v =>
      by_cases hv : v = 0
      · subst hv
        simp [map_amount]
      · simp only [map_amount, if_neg hv, ne_eq, Option.some.injEq]
        intro h
        rcases div_eq_zero_iff.mp h with h2 | h2
        · exact hv (Int.cast_eq_zero.mp h2)
        · norm_num at h2
  refine ⟨rfl, rfl, hnz, ?_, ?_⟩
  · intro bal rows b ba hb hba
    obtain ⟨r, _, _, ham⟩ := mem_amounts_get_budgets bal rows b ba hb hba
    rw [ham]
    exact hnz _
  · intro bal nm rows b ba hok hba
    obtain ⟨r, _, _, ham⟩ := mem_amounts_get_budget bal nm rows b ba hok hba
    rw [ham]
    exact hnz _

/-- Witness for C10 at a concrete zero-amount row. -/
theorem zero_amount_absent_witness :
    map_amount (some 0) = none ∧
      ((⟨"2024-02", none⟩ : BudgetAmount).amount ≠ some 0) :=
  ⟨zero_amount_absent.1,
    zero_amount_absent.2.2.2.1 demo_balance demo_rows
      ⟨"food", [⟨"2024-01", none⟩, ⟨"2024-02", none⟩, ⟨"2024-03", none⟩], 0⟩
      ⟨"2024-02", none⟩ (by decide) (by decide)⟩
